import Mathlib

/-!
# Verification of the smg-vicon skeleton reconstruction pipeline

This file gives a shallow embedding, in Lean 4, of the parts of the
`smg-vicon` Python repository that the specification's claims are about:

* the pelvis-marker hallucination pass of `ViconSkeletonDetector`
  (`__try_hallucinate_missing_markers` / `__try_hallucinate_trapezium_marker`);
* the averaged-keypoint construction (`__try_add_keypoint`);
* the subject-designation computation (`ViconUtil.compute_subject_designations`);
* the offline frame provider (`OfflineViconInterface`) and the frame saver
  (`ViconFrameSaver`);
* the segment-names queries of the offline and live providers;
* `ViconInterface.get_image_source_pose` together with
  `SubjectFromSourceCache.get`.

Floating-point values of the Python code are modelled by exact rationals `ℚ`;
Python dictionaries whose insertion order is irrelevant to the claims are
modelled as functions into `Option`, and dictionaries whose key iteration
order matters are modelled as association lists.  Python's `sorted` (a stable
ascending sort) is modelled by `List.insertionSort`, which is also stable.
-/

/-- A 3D vector with exact rational coordinates, modelling the `np.ndarray`
3-vectors used for marker positions. -/
structure Vec3 where
  x : ℚ
  y : ℚ
  z : ℚ
deriving DecidableEq, Repr

namespace Vec3

/-- Componentwise addition, modelling `+` on numpy 3-vectors. -/
def add (a b : Vec3) : Vec3 := ⟨a.x + b.x, a.y + b.y, a.z + b.z⟩

/-- Componentwise subtraction, modelling `-` on numpy 3-vectors. -/
def sub (a b : Vec3) : Vec3 := ⟨a.x - b.x, a.y - b.y, a.z - b.z⟩

/-- Scalar multiplication, modelling `s * v` on numpy 3-vectors. -/
def smul (s : ℚ) (a : Vec3) : Vec3 := ⟨s * a.x, s * a.y, s * a.z⟩

/-- Dot product of two 3-vectors, modelling `np.dot`. -/
def dot (a b : Vec3) : ℚ := a.x * b.x + a.y * b.y + a.z * b.z

instance : Add Vec3 := ⟨add⟩

instance : Sub Vec3 := ⟨sub⟩

@[simp] lemma add_mk (a b c d e f : ℚ) :
    (⟨a, b, c⟩ + ⟨d, e, f⟩ : Vec3) = ⟨a + d, b + e, c + f⟩ := rfl

@[simp] lemma sub_mk (a b c d e f : ℚ) :
    (⟨a, b, c⟩ - ⟨d, e, f⟩ : Vec3) = ⟨a - d, b - e, c - f⟩ := rfl

@[simp] lemma smul_mk (s a b c : ℚ) :
    Vec3.smul s ⟨a, b, c⟩ = ⟨s * a, s * b, s * c⟩ := rfl

@[simp] lemma dot_mk (a b c d e f : ℚ) :
    Vec3.dot ⟨a, b, c⟩ ⟨d, e, f⟩ = a * d + b * e + c * f := rfl

end Vec3

/-- The vector projection of `a` onto `b`, modelling `vg.project(a, b)`,
i.e. `(a·b / b·b) * b`. -/
def vgProject (a b : Vec3) : Vec3 := Vec3.smul (Vec3.dot a b / Vec3.dot b b) b

/-- Python's `str.startswith`, modelled on the character-list representation
of strings. -/
def pyStartsWith (s pat : String) : Bool := pat.data.isPrefixOf s.data

/-- Python's `str.endswith`, modelled on the character-list representation
of strings. -/
def pyEndsWith (s pat : String) : Bool := pat.data.isSuffixOf s.data

/-- A named anatomical keypoint with a 3D position, modelling
`smg.skeletons.Keypoint` as used by the skeleton detector. -/
structure Keypoint where
  name : String
  position : Vec3
deriving DecidableEq, Repr

/-- A 4×4 matrix of exact rationals, modelling the `np.ndarray` 4×4 pose
matrices. -/
abbrev Mat4 := Matrix (Fin 4) (Fin 4) ℚ

/-- A 3×3 matrix of exact rationals, modelling the `np.ndarray` 3×3 rotation
matrices. -/
abbrev Mat3 := Matrix (Fin 3) (Fin 3) ℚ

/-- The keypoint slice of the external `smg.skeletons.Skeleton3D` value used
by `ViconUtil.compute_subject_designations`: its (name → Keypoint) mapping,
queried with `skeleton.keypoints.get(...)`. -/
structure Skeleton3D where
  keypoints : String → Option Keypoint

namespace ViconSkeletonDetector

/-- A frame's marker-position mapping (`Dict[str, np.ndarray]`): marker name
to optional position.  An absent marker (occluded this frame) is `none`. -/
def MarkerMap : Type := String → Option Vec3

/-- The position computed for the target corner of a planar trapezium from the
origin, base and diagonal corners, as in the body of
`ViconSkeletonDetector.__try_hallucinate_trapezium_marker`:
`a = diagonal - origin`, `b = base - origin`, `a_par = vg.project(a, b)`,
`a_perp = a - a_par`, result `origin + b + a_perp - a_par`. -/
def trapeziumPoint (originPos basePos diagonalPos : Vec3) : Vec3 :=
  let a : Vec3 := diagonalPos - originPos
  let b : Vec3 := basePos - originPos
  let aPar : Vec3 := vgProject a b
  let aPerp : Vec3 := a - aPar
  originPos + b + aPerp - aPar

/-- `ViconSkeletonDetector.__try_hallucinate_trapezium_marker`: if the origin,
base and diagonal markers are all present and the target marker is absent,
add the trapezium point for the target; otherwise leave the map unchanged. -/
def tryHallucinateTrapeziumMarker (targetName : String) (m : MarkerMap)
    (originName baseName diagonalName : String) : MarkerMap :=
  match m originName, m baseName, m diagonalName, m targetName with
  | some o, some b, some d, none =>
      Function.update m targetName (some (trapeziumPoint o b d))
  | _, _, _, _ => m

/-- `ViconSkeletonDetector.__try_hallucinate_missing_markers`: the four
trapezium hallucination attempts for the pelvis markers, in source order. -/
def tryHallucinateMissingMarkers (m : MarkerMap) : MarkerMap :=
  let m1 := tryHallucinateTrapeziumMarker "LASI" m "LPSI" "RPSI" "RASI"
  let m2 := tryHallucinateTrapeziumMarker "LPSI" m1 "LASI" "RASI" "RPSI"
  let m3 := tryHallucinateTrapeziumMarker "RASI" m2 "RPSI" "LPSI" "LASI"
  tryHallucinateTrapeziumMarker "RPSI" m3 "RASI" "LASI" "LPSI"

/-- The four pelvis marker names involved in hallucination. -/
def pelvisMarkers : List String := ["LASI", "LPSI", "RASI", "RPSI"]

/-- Closed-form characterization of one hallucination pass, by case analysis
on which of the four pelvis markers are present: if all four are present, or
two or more are missing, the map is unchanged; if exactly one is missing it is
filled with the trapezium point computed from the other three (with the
origin/base/diagonal roles assigned as in
`__try_hallucinate_missing_markers`). -/
lemma hallucinate_characterization (m : MarkerMap) :
    tryHallucinateMissingMarkers m =
      match m "LASI", m "LPSI", m "RASI", m "RPSI" with
      | none, some l, some r, some p => Function.update m "LASI" (some (trapeziumPoint l p r))
      | some a, none, some r, some p => Function.update m "LPSI" (some (trapeziumPoint a r p))
      | some a, some l, none, some p => Function.update m "RASI" (some (trapeziumPoint p l a))
      | some a, some l, some r, none => Function.update m "RPSI" (some (trapeziumPoint r a l))
      | _, _, _, _ => m := by
  rcases hA : m "LASI" with _ | a <;> rcases hL : m "LPSI" with _ | l <;>
    rcases hR : m "RASI" with _ | r <;> rcases hP : m "RPSI" with _ | p <;>
      simp [tryHallucinateMissingMarkers, tryHallucinateTrapeziumMarker, hA, hL, hR, hP,
        Function.update_apply]

/-- Updating an absent key preserves every present entry. -/
lemma update_at_none_preserves {m : MarkerMap} {t : String} {w : Option Vec3}
    (ht : m t = none) {k : String} {v : Vec3} (h : m k = some v) :
    Function.update m t w k = some v := by
  rcases eq_or_ne k t with rfl | hne
  · rw [h] at ht; cases ht
  · rw [Function.update_noteq hne]; exact h

/-- The hallucination pass never changes the value of a present marker. -/
lemma markers_preserved (m : MarkerMap) (k : String) (v : Vec3) (h : m k = some v) :
    tryHallucinateMissingMarkers m k = some v := by
  rw [hallucinate_characterization]
  rcases hA : m "LASI" with _ | a <;> rcases hL : m "LPSI" with _ | l <;>
    rcases hR : m "RASI" with _ | r <;> rcases hP : m "RPSI" with _ | p <;>
      simp only [hA, hL, hR, hP] <;>
      first
        | exact h
        | exact update_at_none_preserves hA h
        | exact update_at_none_preserves hL h
        | exact update_at_none_preserves hR h
        | exact update_at_none_preserves hP h

/-- If all four pelvis markers are present, the hallucination pass is the
identity. -/
lemma hallucinate_of_all_some {m : MarkerMap}
    (hA : (m "LASI").isSome) (hL : (m "LPSI").isSome)
    (hR : (m "RASI").isSome) (hP : (m "RPSI").isSome) :
    tryHallucinateMissingMarkers m = m := by
  obtain ⟨a, hA'⟩ := Option.isSome_iff_exists.mp hA
  obtain ⟨l, hL'⟩ := Option.isSome_iff_exists.mp hL
  obtain ⟨r, hR'⟩ := Option.isSome_iff_exists.mp hR
  obtain ⟨p, hP'⟩ := Option.isSome_iff_exists.mp hP
  rw [hallucinate_characterization]
  simp [hA', hL', hR', hP']

/-- One hallucination pass either leaves the map unchanged, or fills exactly
one pelvis marker that was absent while its three partners were present. -/
lemma hallucinate_cases (m : MarkerMap) :
    tryHallucinateMissingMarkers m = m ∨
    ∃ X t, X ∈ pelvisMarkers ∧ m X = none ∧
      (∀ p ∈ pelvisMarkers, p ≠ X → (m p).isSome) ∧
      tryHallucinateMissingMarkers m = Function.update m X (some t) := by
  rw [hallucinate_characterization]
  rcases hA : m "LASI" with _ | a <;> rcases hL : m "LPSI" with _ | l <;>
    rcases hR : m "RASI" with _ | r <;> rcases hP : m "RPSI" with _ | p <;>
      simp only [hA, hL, hR, hP]
  case some.some.some.none =>
    refine Or.inr ⟨"RPSI", _, by decide, hP, ?_, rfl⟩
    intro q hq hne
    simp only [pelvisMarkers, List.mem_cons, List.not_mem_nil, or_false] at hq
    rcases hq with rfl | rfl | rfl | rfl
    · simp [hA]
    · simp [hL]
    · simp [hR]
    · exact absurd rfl hne
  case some.some.none.some =>
    refine Or.inr ⟨"RASI", _, by decide, hR, ?_, rfl⟩
    intro q hq hne
    simp only [pelvisMarkers, List.mem_cons, List.not_mem_nil, or_false] at hq
    rcases hq with rfl | rfl | rfl | rfl
    · simp [hA]
    · simp [hL]
    · exact absurd rfl hne
    · simp [hP]
  case some.none.some.some =>
    refine Or.inr ⟨"LPSI", _, by decide, hL, ?_, rfl⟩
    intro q hq hne
    simp only [pelvisMarkers, List.mem_cons, List.not_mem_nil, or_false] at hq
    rcases hq with rfl | rfl | rfl | rfl
    · simp [hA]
    · exact absurd rfl hne
    · simp [hR]
    · simp [hP]
  case none.some.some.some =>
    refine Or.inr ⟨"LASI", _, by decide, hA, ?_, rfl⟩
    intro q hq hne
    simp only [pelvisMarkers, List.mem_cons, List.not_mem_nil, or_false] at hq
    rcases hq with rfl | rfl | rfl | rfl
    · exact absurd rfl hne
    · simp [hL]
    · simp [hR]
    · simp [hP]
  all_goals exact Or.inl trivial

/-- The marker mapping `{LASI: [1,0,0], LPSI: [1,1,0], RASI: [0,0,0]}`
(RPSI absent) from the specification's example scenario. -/
def exampleMarkerMap : MarkerMap := fun s =>
  if s = "LASI" then some ⟨1, 0, 0⟩
  else if s = "LPSI" then some ⟨1, 1, 0⟩
  else if s = "RASI" then some ⟨0, 0, 0⟩
  else none

/-- C1: on the mapping `{LASI: [1,0,0], LPSI: [1,1,0], RASI: [0,0,0]}` with
RPSI absent, the hallucination pass adds an RPSI entry whose value is exactly
the trapezium formula `T = O + b + a_perp - a_par` with origin `O = RASI`,
base `B = LASI` and diagonal `D = LPSI`, which in exact arithmetic is
`[0,1,0]`; and the pass is deterministic: any mapping extensionally equal to
the input yields the same output. -/
theorem hallucination_example_trapezium :
    (tryHallucinateMissingMarkers exampleMarkerMap) "RPSI"
        = some (trapeziumPoint ⟨0, 0, 0⟩ ⟨1, 0, 0⟩ ⟨1, 1, 0⟩)
    ∧ trapeziumPoint ⟨0, 0, 0⟩ ⟨1, 0, 0⟩ ⟨1, 1, 0⟩ = ⟨0, 1, 0⟩
    ∧ ∀ m' : MarkerMap, (∀ s, m' s = exampleMarkerMap s) →
        tryHallucinateMissingMarkers m' = tryHallucinateMissingMarkers exampleMarkerMap := by
  refine ⟨?_, ?_, ?_⟩
  · rw [hallucinate_characterization]
    simp [exampleMarkerMap]
  · simp only [trapeziumPoint, vgProject]
    norm_num [Vec3.mk.injEq]
  · intro m' h
    rw [funext h]

/-- Witness for C1: the determinism hypothesis is dischargeable at the
example mapping itself. -/
theorem hallucination_example_trapezium_witness :
    tryHallucinateMissingMarkers exampleMarkerMap
      = tryHallucinateMissingMarkers exampleMarkerMap :=
  hallucination_example_trapezium.2.2 exampleMarkerMap (fun _ => rfl)

/-- C2: the hallucination pass is idempotent — applying it to its own output
changes nothing; it never changes the value of a marker that is already
present; and it fills a pelvis marker only when that marker is absent and all
three of its trapezium partners are present. -/
theorem hallucination_idempotent (m : MarkerMap) :
    tryHallucinateMissingMarkers (tryHallucinateMissingMarkers m) = tryHallucinateMissingMarkers m
    ∧ (∀ k v, m k = some v → tryHallucinateMissingMarkers m k = some v)
    ∧ (∀ k, k ∈ pelvisMarkers → tryHallucinateMissingMarkers m k ≠ m k →
        m k = none ∧ ∀ q ∈ pelvisMarkers, q ≠ k → (m q).isSome) := by
  refine ⟨?_, fun k v h => markers_preserved m k v h, ?_⟩
  · rcases hallucinate_cases m with h | ⟨X, t, hXmem, hXnone, hpart, heq⟩
    · simp only [h]
    · simp only [heq]
      have hall : ∀ q ∈ pelvisMarkers, ((Function.update m X (some t)) q).isSome := by
        intro q hq
        rcases eq_or_ne q X with rfl | hne
        · simp
        · rw [Function.update_noteq hne]; exact hpart q hq hne
      exact hallucinate_of_all_some (hall "LASI" (by decide)) (hall "LPSI" (by decide))
        (hall "RASI" (by decide)) (hall "RPSI" (by decide))
  · intro k _ hdiff
    rcases hallucinate_cases m with h | ⟨X, t, hXmem, hXnone, hpart, heq⟩
    · rw [h] at hdiff; exact absurd rfl hdiff
    · rw [heq] at hdiff
      rcases eq_or_ne k X with rfl | hne
      · exact ⟨hXnone, fun q hq hqk => hpart q hq hqk⟩
      · rw [Function.update_noteq hne] at hdiff; exact absurd rfl hdiff

/-- Witness for C2: on the all-present map, the preservation part applies at a
concrete marker. -/
theorem hallucination_idempotent_witness :
    tryHallucinateMissingMarkers (fun _ => some ⟨0, 0, 0⟩) "LASI" = some (⟨0, 0, 0⟩ : Vec3) :=
  (hallucination_idempotent (fun _ => some ⟨0, 0, 0⟩)).2.1 "LASI" ⟨0, 0, 0⟩ rfl

/-- C10: one hallucination pass keeps every entry present before the run with
its exact value, changes the map at no key outside the four pelvis markers,
and adds at most one new entry. -/
theorem hallucination_frame_effect (m : MarkerMap) :
    (∀ k v, m k = some v → tryHallucinateMissingMarkers m k = some v)
    ∧ (∀ k, k ∉ pelvisMarkers → tryHallucinateMissingMarkers m k = m k)
    ∧ (∀ k₁ k₂, tryHallucinateMissingMarkers m k₁ ≠ m k₁ →
        tryHallucinateMissingMarkers m k₂ ≠ m k₂ → k₁ = k₂) := by
  refine ⟨fun k v h => markers_preserved m k v h, ?_, ?_⟩
  · intro k hk
    rcases hallucinate_cases m with h | ⟨X, t, hXmem, _, _, heq⟩
    · rw [h]
    · rw [heq, Function.update_noteq (fun hkX => hk (by rw [hkX]; exact hXmem))]
  · intro k₁ k₂ h₁ h₂
    rcases hallucinate_cases m with h | ⟨X, t, _, _, _, heq⟩
    · rw [h] at h₁; exact absurd rfl h₁
    · rw [heq] at h₁ h₂
      rcases eq_or_ne k₁ X with rfl | hne₁
      · rcases eq_or_ne k₂ k₁ with rfl | hne₂
        · rfl
        · rw [Function.update_noteq hne₂] at h₂; exact absurd rfl h₂
      · rw [Function.update_noteq hne₁] at h₁; exact absurd rfl h₁

/-- Witness for C10: on the all-absent map, a non-pelvis key is unchanged. -/
theorem hallucination_frame_effect_witness :
    tryHallucinateMissingMarkers (fun _ => none) "Head" = none :=
  (hallucination_frame_effect (fun _ => none)).2.1 "Head" (by decide)

/-- A skeleton's keypoint mapping under construction
(`Dict[str, Keypoint]`). -/
def KeypointMap : Type := String → Option Keypoint

/-- The componentwise arithmetic mean of a list of 3-vectors, modelling
`np.mean(positions, axis=0)`. -/
def meanPosition (ps : List Vec3) : Vec3 :=
  ⟨(ps.map Vec3.x).sum / ps.length, (ps.map Vec3.y).sum / ps.length,
   (ps.map Vec3.z).sum / ps.length⟩

/-- `ViconSkeletonDetector.__try_add_keypoint`: walk the candidate marker sets
in order; for the first set whose markers are all present, set the keypoint to
the mean of those markers' positions and stop; if no set qualifies, leave the
keypoint mapping unchanged. -/
def tryAddKeypoint (keypointName : String) (baseMarkerSets : List (List String))
    (markerPositions : MarkerMap) (keypoints : KeypointMap) : KeypointMap :=
  match baseMarkerSets with
  | [] => keypoints
  | s :: rest =>
      if (s.map markerPositions).all Option.isSome then
        Function.update keypoints keypointName
          (some ⟨keypointName, meanPosition (s.filterMap markerPositions)⟩)
      else tryAddKeypoint keypointName rest markerPositions keypoints

/-- The candidate marker sets used for the MidHip keypoint in
`detect_skeletons`. -/
def midHipMarkerSets : List (List String) :=
  [["LASI", "LPSI", "RASI", "RPSI"], ["LASI", "RPSI"], ["RASI", "LPSI"]]

/-- C3: an averaged keypoint takes its position from the first candidate
marker set whose markers are all present, as the arithmetic mean of those
markers' positions; when no candidate set is fully present the keypoint
mapping is unchanged (no entry added); and when an earlier and a later set
are both fully present the earlier one is used. -/
theorem try_add_keypoint_spec (keypointName : String)
    (sets : List (List String)) (m : MarkerMap) (k : KeypointMap) :
    (tryAddKeypoint keypointName sets m k =
      match sets.find? (fun s => (s.map m).all Option.isSome) with
      | some s => Function.update k keypointName
          (some ⟨keypointName, meanPosition (s.filterMap m)⟩)
      | none => k)
    ∧ (∀ s₁ s₂ : List String, (s₁.map m).all Option.isSome = true →
        tryAddKeypoint keypointName [s₁, s₂] m k
          = Function.update k keypointName
              (some ⟨keypointName, meanPosition (s₁.filterMap m)⟩)) := by
  constructor
  · induction sets with
    | nil => rfl
    | cons s rest ih =>
        by_cases h : (s.map m).all Option.isSome
        · simp [tryAddKeypoint, h, List.find?_cons_of_pos]
        · simp only [tryAddKeypoint, h, if_false, Bool.false_eq_true]
          rw [List.find?_cons_of_neg _ (by simp [h]), ih]
  · intro s₁ s₂ h
    simp [tryAddKeypoint, h]

/-- A marker mapping with all four pelvis markers present, for the C3
witness. -/
def fourMarkerMap : MarkerMap := fun s =>
  if s = "LASI" then some ⟨1, 0, 0⟩
  else if s = "LPSI" then some ⟨1, 1, 0⟩
  else if s = "RASI" then some ⟨0, 0, 0⟩
  else if s = "RPSI" then some ⟨0, 3, 0⟩
  else none

/-- Witness for C3: with the two fallback MidHip candidate sets both fully
present, the earlier one is used. -/
theorem try_add_keypoint_spec_witness :
    tryAddKeypoint "MidHip" [["LASI", "RPSI"], ["RASI", "LPSI"]] fourMarkerMap (fun _ => none)
      = Function.update (fun _ => none) "MidHip"
          (some ⟨"MidHip", meanPosition (["LASI", "RPSI"].filterMap fourMarkerMap)⟩) :=
  (try_add_keypoint_spec "MidHip" [["LASI", "RPSI"], ["RASI", "LPSI"]] fourMarkerMap
    (fun _ => none)).2 ["LASI", "RPSI"] ["RASI", "LPSI"] (by decide)

end ViconSkeletonDetector

namespace ViconUtil

/-- `ViconUtil.is_designatable`: a subject is designatable iff its name starts
with "Object". -/
def isDesignatable (subjectName : String) : Bool := pyStartsWith subjectName "Object"

/-- The slice of the `ViconInterface` query surface used by
`compute_subject_designations`: the subject-name list and the
segment-global-pose query. -/
structure ViconFrameQueries where
  subjectNames : List String
  segmentGlobalPose : String → String → Option Mat4

/-- Modelled from the spec: `CameraPoseConverter.pose_to_camera` and
`SimpleCamera.p` live in the external `smg.rigging` package, not in this
repository.  Per the spec the provider's pose is segment-from-world and "must
be inverted by the caller to obtain world placement"; for a rigid pose with
rotation `R` and translation `t` the world-space position is `-Rᵀ t`. -/
def cameraPosOfPose (P : Mat4) : Vec3 :=
  ⟨-(P 0 0 * P 0 3 + P 1 0 * P 1 3 + P 2 0 * P 2 3),
   -(P 0 1 * P 0 3 + P 1 1 * P 1 3 + P 2 1 * P 2 3),
   -(P 0 2 * P 0 3 + P 1 2 * P 1 3 + P 2 2 * P 2 3)⟩

/-- Modelled from the spec: `GeometryUtil.find_closest_point_on_half_ray` is
in the external `smg.utility` package, not in this repository.  The closest
point to `p` on the half-ray from `s` with direction `d` is
`s + max 0 ((p−s)·d / d·d) · d`. -/
def findClosestPointOnHalfRay (p s d : Vec3) : Vec3 :=
  Vec3.add s (Vec3.smul (max 0 (Vec3.dot (p - s) d / Vec3.dot d d)) d)

/-- The squared Euclidean distance between two points.  The Python code stores
`np.linalg.norm(subject_pos - closest_point)`; this embedding stores its
square, which is exact over `ℚ`.  Since `Real.sqrt` is strictly monotone on
nonnegatives, sorting by the squared distance is the same as sorting by the
distance, and the true distances are recovered as `Real.sqrt` of the stored
values. -/
def sqDist (p q : Vec3) : ℚ := Vec3.dot (p - q) (p - q)

/-- The comparison used by `sorted(..., key=itemgetter(1))`: order the
(skeleton, distance) pairs by distance. -/
def distLE (a b : String × ℚ) : Prop := a.2 ≤ b.2

instance : DecidableRel distLE := fun a b => inferInstanceAs (Decidable (a.2 ≤ b.2))

instance : IsTotal (String × ℚ) distLE := ⟨fun a b => le_total a.2 b.2⟩

instance : IsTrans (String × ℚ) distLE := ⟨fun _ _ _ h₁ h₂ => le_trans h₁ h₂⟩

/-- The inner skeleton loop of `compute_subject_designations`: one
(skeleton-name, squared distance) pair for every skeleton that has both a
right-shoulder and a right-elbow keypoint, in skeleton order. -/
def designationCandidates (skeletons : List (String × Skeleton3D)) (subjectPos : Vec3) :
    List (String × ℚ) :=
  skeletons.filterMap fun sk =>
    match sk.2.keypoints "RShoulder", sk.2.keypoints "RElbow" with
    | some rightShoulder, some rightElbow =>
        some (sk.1, sqDist subjectPos
          (findClosestPointOnHalfRay subjectPos rightShoulder.position
            (rightElbow.position - rightShoulder.position)))
    | _, _ => none

/-- One iteration of the outer subject loop of
`compute_subject_designations`: skip non-designatable subjects and subjects
without a pose; otherwise append the candidate pairs to the subject's list
and, if the list is nonempty (i.e. the `defaultdict` has an entry), sort it
by distance.  The designations table is modelled as a function with the
`defaultdict(list)` read semantics: absent entries read as `[]`. -/
def designationStep (skeletons : List (String × Skeleton3D)) (vicon : ViconFrameQueries)
    (acc : String → List (String × ℚ)) (subjectName : String) :
    String → List (String × ℚ) :=
  if isDesignatable subjectName then
    match vicon.segmentGlobalPose subjectName subjectName with
    | none => acc
    | some pose =>
        let appended :=
          acc subjectName ++ designationCandidates skeletons (cameraPosOfPose pose)
        if appended.isEmpty then acc
        else Function.update acc subjectName (List.insertionSort distLE appended)
  else acc

/-- `ViconUtil.compute_subject_designations`, as the fold of the subject loop
over the frame's subject names. -/
def computeSubjectDesignations (vicon : ViconFrameQueries)
    (skeletons : List (String × Skeleton3D)) : String → List (String × ℚ) :=
  vicon.subjectNames.foldl (designationStep skeletons vicon) (fun _ => [])

/-- A designation step for one subject never touches another subject's
entry. -/
lemma designationStep_other (skeletons vicon acc) (n s : String) (hne : n ≠ s) :
    designationStep skeletons vicon acc n s = acc s := by
  unfold designationStep
  split
  · rcases hp : vicon.segmentGlobalPose n n with _ | pose
    · simp only [hp]
    · simp only [hp]
      split
      · rfl
      · exact Function.update_noteq (Ne.symm hne) _ _
  · rfl

/-- Folding the subject loop over names not containing `s` leaves the entry
of `s` unchanged. -/
lemma foldl_designationStep_not_mem (skeletons vicon) (names : List String)
    (acc : String → List (String × ℚ)) (s : String) (hs : s ∉ names) :
    names.foldl (designationStep skeletons vicon) acc s = acc s := by
  induction names generalizing acc with
  | nil => rfl
  | cons n rest ih =>
      rw [List.foldl_cons, ih _ (fun h => hs (List.mem_cons_of_mem n h)),
        designationStep_other skeletons vicon acc n s
          (fun h => hs (h ▸ List.mem_cons_self n rest))]

/-- The subject loop keeps every entry sorted by distance. -/
lemma foldl_designationStep_sorted (skeletons vicon) (names : List String)
    (acc : String → List (String × ℚ))
    (hacc : ∀ s, List.Sorted distLE (acc s)) (s : String) :
    List.Sorted distLE (names.foldl (designationStep skeletons vicon) acc s) := by
  induction names generalizing acc with
  | nil => exact hacc s
  | cons n rest ih =>
      rw [List.foldl_cons]
      refine ih _ ?_
      intro q
      unfold designationStep
      split
      · rcases hp : vicon.segmentGlobalPose n n with _ | pose
        · simp only [hp]
          exact hacc q
        · simp only [hp]
          split
          · exact hacc q
          · rcases eq_or_ne q n with rfl | hne
            · rw [Function.update_same]
              exact List.sorted_insertionSort distLE _
            · rw [Function.update_noteq hne]
              exact hacc q
      · exact hacc q

/-- A designation step for a designatable subject with a known pose replaces
the subject's entry by the sorted extension of its current list. -/
lemma designationStep_self_fill (skeletons vicon acc) (s : String) (pose : Mat4)
    (hdes : isDesignatable s = true)
    (hpose : vicon.segmentGlobalPose s s = some pose) :
    designationStep skeletons vicon acc s s =
      (if (acc s ++ designationCandidates skeletons (cameraPosOfPose pose)).isEmpty
       then acc s
       else List.insertionSort distLE
         (acc s ++ designationCandidates skeletons (cameraPosOfPose pose))) := by
  unfold designationStep
  simp only [hdes, if_true, hpose]
  split
  · rfl
  · exact Function.update_same _ _ _

/-- A designation step for a non-designatable subject, or one without a pose,
changes nothing at that subject. -/
lemma designationStep_self_skip (skeletons vicon acc) (s : String)
    (h : isDesignatable s = false ∨ vicon.segmentGlobalPose s s = none) :
    designationStep skeletons vicon acc s s = acc s := by
  unfold designationStep
  rcases h with h | h
  · simp [h]
  · simp [h]

/-- Folding the subject loop never changes the entry of a subject that is not
designatable or has no pose. -/
lemma foldl_designationStep_skip (skeletons vicon) (names : List String)
    (acc : String → List (String × ℚ)) (s : String)
    (h : isDesignatable s = false ∨ vicon.segmentGlobalPose s s = none) :
    names.foldl (designationStep skeletons vicon) acc s = acc s := by
  induction names generalizing acc with
  | nil => rfl
  | cons n rest ih =>
      rw [List.foldl_cons, ih]
      rcases eq_or_ne n s with rfl | hne
      · exact designationStep_self_skip skeletons vicon acc n h
      · exact designationStep_other skeletons vicon acc n s hne

/-- C4: every designation list is sorted in non-decreasing order of squared
distance (hence of Euclidean distance, recovered through `Real.sqrt`); for a
designatable subject with a known pose the list is a permutation of the
candidate list, which holds exactly one (skeleton, distance) pair per
skeleton that has both right-shoulder and right-elbow keypoints, with the
distance taken to the closest point of the shoulder-through-elbow half-ray;
and subjects that are absent, non-designatable or without a resolvable
position get the empty list, never an error. -/
theorem compute_subject_designations_spec (vicon : ViconFrameQueries)
    (skeletons : List (String × Skeleton3D)) (subjectName : String)
    (hnodup : vicon.subjectNames.Nodup) :
    List.Sorted distLE (computeSubjectDesignations vicon skeletons subjectName)
    ∧ List.Sorted (· ≤ ·)
        ((computeSubjectDesignations vicon skeletons subjectName).map
          (fun pr => Real.sqrt (pr.2 : ℝ)))
    ∧ (∀ pose, subjectName ∈ vicon.subjectNames → isDesignatable subjectName = true →
        vicon.segmentGlobalPose subjectName subjectName = some pose →
        (computeSubjectDesignations vicon skeletons subjectName).Perm
          (designationCandidates skeletons (cameraPosOfPose pose)))
    ∧ (subjectName ∉ vicon.subjectNames ∨ isDesignatable subjectName = false ∨
        vicon.segmentGlobalPose subjectName subjectName = none →
        computeSubjectDesignations vicon skeletons subjectName = []) := by
  have hsorted : List.Sorted distLE (computeSubjectDesignations vicon skeletons subjectName) :=
    foldl_designationStep_sorted skeletons vicon _ _ (fun _ => List.sorted_nil) _
  refine ⟨hsorted, ?_, ?_, ?_⟩
  · exact List.pairwise_map.mpr
      (hsorted.imp (fun hab => Real.sqrt_le_sqrt (by exact_mod_cast hab)))
  · intro pose hmem hdes hpose
    obtain ⟨l₁, l₂, hsplit⟩ := List.append_of_mem hmem
    rw [hsplit] at hnodup
    have hs₁ : subjectName ∉ l₁ := by
      have hd := List.disjoint_of_nodup_append hnodup
      exact fun h => (hd h) (List.mem_cons_self _ _)
    have hs₂ : subjectName ∉ l₂ := by
      have h2 := (List.nodup_append.mp hnodup).2.1
      exact (List.nodup_cons.mp h2).1
    unfold computeSubjectDesignations
    rw [hsplit, List.foldl_append, List.foldl_cons]
    have hacc₁s : l₁.foldl (designationStep skeletons vicon) (fun _ => []) subjectName = [] :=
      foldl_designationStep_not_mem _ _ _ _ _ hs₁
    rw [foldl_designationStep_not_mem _ _ _ _ _ hs₂,
      designationStep_self_fill _ _ _ _ _ hdes hpose, hacc₁s, List.nil_append]
    rcases hc : (designationCandidates skeletons (cameraPosOfPose pose)).isEmpty with _ | _
    · simp only [hc, if_false, Bool.false_eq_true]
      exact List.perm_insertionSort distLE _
    · simp only [hc, if_true]
      rw [List.isEmpty_iff.mp hc]
  · intro h
    rcases h with h | h
    · exact foldl_designationStep_not_mem _ _ _ _ _ h
    · exact foldl_designationStep_skip _ _ _ _ _ h

/-- A one-subject, one-skeleton frame for the C4 witness. -/
def witnessVicon : ViconFrameQueries := ⟨["Object1"], fun _ _ => some 1⟩

/-- A single skeleton with right-shoulder and right-elbow keypoints, for the
C4 witness. -/
def witnessSkeletons : List (String × Skeleton3D) :=
  [("Skel", ⟨fun kp =>
    if kp = "RShoulder" then some ⟨"RShoulder", ⟨0, 0, 0⟩⟩
    else if kp = "RElbow" then some ⟨"RElbow", ⟨1, 0, 0⟩⟩
    else none⟩)]

/-- Witness for C4: the designation list of the concrete subject "Object1" is
a permutation of its candidate list. -/
theorem compute_subject_designations_witness :
    (computeSubjectDesignations witnessVicon witnessSkeletons "Object1").Perm
      (designationCandidates witnessSkeletons (cameraPosOfPose 1)) :=
  (compute_subject_designations_spec witnessVicon witnessSkeletons "Object1"
    (by decide)).2.2.1 1 (by decide) (by decide) rfl

end ViconUtil

namespace OfflineViconInterface

/-- `OfflineViconInterface.Subject`: a subject's parsed per-frame data — the
marker positions, the segment global poses (one entry per segment, possibly
`None`) and the segment local rotations. -/
structure Subject where
  markerPositions : List (String × Vec3)
  segmentGlobalPoses : List (String × Option Mat4)
  segmentLocalRotations : List (String × Option Mat3)

/-- One recorded frame file: on disk it is a text file named
`<frame number>.vicon.txt`; it is modelled here by its embedded frame number
and its already-parsed subject data (the text parsing itself is not
load-bearing for the claims about frame ordering and exhaustion; the filename
handling is modelled separately for the round-trip claim). -/
structure FrameFile where
  number : Nat
  subjects : List (String × Subject)

/-- The sort key used in `__init__`:
`sorted(frame_filenames, key=__get_frame_number)` orders the frame files by
their embedded frame numbers. -/
def fileLE (a b : FrameFile) : Prop := a.number ≤ b.number

instance : DecidableRel fileLE := fun a b => inferInstanceAs (Decidable (a.number ≤ b.number))

instance : IsTotal FrameFile fileLE := ⟨fun a b => le_total a.number b.number⟩

instance : IsTrans FrameFile fileLE := ⟨fun _ _ _ h₁ h₂ => le_trans h₁ h₂⟩

/-- The provider's mutable state: the sorted frame-file list, the current
frame number (`None` before the first frame and after exhaustion), the index
of the next frame to load, and the current frame's subjects. -/
structure State where
  frameFiles : List FrameFile
  frameNumber : Option Nat
  nextFrameIdx : Nat
  subjects : String → Option Subject

/-- Loading a frame's subject list into the subjects dictionary
(`self.__subjects[subject_name] = Subject(...)` per line group; a later
duplicate name overwrites an earlier one). -/
def loadSubjects (l : List (String × Subject)) : String → Option Subject :=
  fun n => (l.reverse.find? (fun p => p.1 == n)).map Prod.snd

/-- `OfflineViconInterface.__init__`: sort the folder's frame files by
embedded frame number (Python's `sorted` is stable ascending, like
`List.insertionSort`), with no frame loaded yet. -/
def init (files : List FrameFile) : State :=
  { frameFiles := List.insertionSort fileLE files
    frameNumber := none
    nextFrameIdx := 0
    subjects := fun _ => none }

/-- `OfflineViconInterface.get_frame`: clear the subjects; if there is an
unvisited frame file, load its frame number and subjects, advance the index
and return `True`; otherwise clear the frame number and return `False`. -/
def getFrame (st : State) : Bool × State :=
  if h : st.nextFrameIdx < st.frameFiles.length then
    let file := st.frameFiles.get ⟨st.nextFrameIdx, h⟩
    (true, { st with frameNumber := some file.number,
                     subjects := loadSubjects file.subjects,
                     nextFrameIdx := st.nextFrameIdx + 1 })
  else (false, { st with frameNumber := none, subjects := fun _ => none })

/-- The state after one `get_frame` call. -/
def advance (st : State) : State := (getFrame st).2

/-- `OfflineViconInterface.get_frame_number`. -/
def getFrameNumber (st : State) : Option Nat := st.frameNumber

/-- `OfflineViconInterface.get_segment_names`: the segment names are the keys
of the subject's segment-global-poses dictionary.  The Python code's declared
return type is `List[str]` and its docstring promises the empty list for an
unknown subject, but the code returns `None` in that case; the `Option`
result models that actual behaviour. -/
def getSegmentNames (st : State) (subjectName : String) : Option (List String) :=
  (st.subjects subjectName).map (fun s => s.segmentGlobalPoses.map Prod.fst)

/-- The filename filter applied by `OfflineViconInterface.__init__`: only
files whose names end in ".vicon.txt" are treated as frame files. -/
def isFrameFilename (name : String) : Bool := pyEndsWith name ".vicon.txt"

/-- The frame-file name list built by `OfflineViconInterface.__init__` from a
folder's filenames, before sorting. -/
def listFrameFilenames (folderFiles : List String) : List String :=
  folderFiles.filter isFrameFilename

lemma advance_frameFiles (st : State) : (advance st).frameFiles = st.frameFiles := by
  unfold advance getFrame
  split <;> rfl

lemma advance_nextFrameIdx (st : State) :
    (advance st).nextFrameIdx =
      if st.nextFrameIdx < st.frameFiles.length then st.nextFrameIdx + 1
      else st.nextFrameIdx := by
  unfold advance getFrame
  split
  · rfl
  · rfl

/-- After `k` frame advances the frame list is still the sorted one and the
next-frame index is `min k (number of frames)`. -/
lemma iterate_advance_init (files : List FrameFile) (k : Nat) :
    ((advance)^[k] (init files)).frameFiles = List.insertionSort fileLE files
    ∧ ((advance)^[k] (init files)).nextFrameIdx = min k files.length := by
  have hlen : (List.insertionSort fileLE files).length = files.length :=
    (List.perm_insertionSort fileLE files).length_eq
  induction k with
  | zero => exact ⟨rfl, by simp [init]⟩
  | succ n ih =>
      obtain ⟨ihf, ihi⟩ := ih
      rw [Function.iterate_succ_apply']
      refine ⟨by rw [advance_frameFiles, ihf], ?_⟩
      rw [advance_nextFrameIdx, ihf, hlen, ihi]
      rcases Nat.lt_or_ge n files.length with h | h
      · rw [if_pos (by omega)]
        omega
      · rw [if_neg (by omega)]
        omega

lemma getFrame_of_lt (st : State) (h : st.nextFrameIdx < st.frameFiles.length) :
    getFrame st =
      (true, { st with frameNumber := some ((st.frameFiles.get ⟨st.nextFrameIdx, h⟩).number),
                       subjects := loadSubjects ((st.frameFiles.get ⟨st.nextFrameIdx, h⟩).subjects),
                       nextFrameIdx := st.nextFrameIdx + 1 }) := by
  unfold getFrame
  rw [dif_pos h]

lemma getFrame_of_ge (st : State) (h : ¬ st.nextFrameIdx < st.frameFiles.length) :
    getFrame st = (false, { st with frameNumber := none, subjects := fun _ => none }) := by
  unfold getFrame
  rw [dif_neg h]

lemma advance_frameNumber (st : State) :
    (advance st).frameNumber = (st.frameFiles[st.nextFrameIdx]?).map FrameFile.number := by
  unfold advance getFrame
  split
  · next h => rw [List.getElem?_eq_getElem h]; rfl
  · next h => rw [List.getElem?_eq_none (Nat.le_of_not_lt h)]; rfl

/-- In a strictly sorted list of naturals, exactly `k` elements are smaller
than the element at index `k`. -/
lemma countP_lt_get_of_pairwise_lt (l : List ℕ) (hl : l.Pairwise (· < ·)) :
    ∀ (k : Nat) (hk : k < l.length),
      l.countP (fun x => decide (x < l.get ⟨k, hk⟩)) = k := by
  induction l with
  | nil => intro k hk; cases hk
  | cons a t ih =>
      intro k hk
      rcases List.pairwise_cons.mp hl with ⟨ha, ht⟩
      cases k with
      | zero =>
          rw [List.countP_cons]
          have h0 : t.countP (fun x => decide (x < (a :: t).get ⟨0, hk⟩)) = 0 := by
            rw [List.countP_eq_zero]
            intro x hx
            simp only [List.get, decide_eq_true_eq]
            exact fun hlt => absurd (ha x hx) (Nat.lt_asymm hlt)
          rw [h0]
          simp [List.get]
      | succ n =>
          rw [List.countP_cons]
          have hn : n < t.length := Nat.lt_of_succ_lt_succ hk
          have hg : (a :: t).get ⟨n + 1, hk⟩ = t.get ⟨n, hn⟩ := rfl
          rw [hg, ih ht n hn]
          have hag : a < t.get ⟨n, hn⟩ := ha _ (List.get_mem _ _ _)
          rw [if_pos (decide_eq_true hag)]

/-- C8: for every folder, after `k + 1` successful frame advances the
reported frame number is the `k`-th smallest embedded frame number: it
belongs to the folder's embedded numbers and (for distinct numbers) exactly
`k` of them are smaller — the provider visits frames in non-decreasing order
of embedded frame number, not in lexical filename order. -/
theorem offline_frame_order (files : List FrameFile) (k : Nat) (hk : k < files.length)
    (hnodup : (files.map FrameFile.number).Nodup) :
    ∃ v, getFrameNumber ((advance)^[k + 1] (init files)) = some v
      ∧ v ∈ files.map FrameFile.number
      ∧ (files.map FrameFile.number).countP (fun x => decide (x < v)) = k := by
  have hlen : (List.insertionSort fileLE files).length = files.length :=
    (List.perm_insertionSort fileLE files).length_eq
  have hperm : ((List.insertionSort fileLE files).map FrameFile.number).Perm
      (files.map FrameFile.number) :=
    (List.perm_insertionSort fileLE files).map FrameFile.number
  have hsorted : ((List.insertionSort fileLE files).map FrameFile.number).Pairwise (· ≤ ·) :=
    List.Pairwise.map FrameFile.number (fun _ _ h => h)
      (List.sorted_insertionSort fileLE files)
  have hnodup' : ((List.insertionSort fileLE files).map FrameFile.number).Nodup :=
    hperm.nodup_iff.mpr hnodup
  have hstrict : ((List.insertionSort fileLE files).map FrameFile.number).Pairwise (· < ·) :=
    (hsorted.and hnodup').imp (fun h => lt_of_le_of_ne h.1 h.2)
  have hk₁ : k < (List.insertionSort fileLE files).length := by rw [hlen]; exact hk
  have hk₂ : k < ((List.insertionSort fileLE files).map FrameFile.number).length := by
    rw [List.length_map]; exact hk₁
  obtain ⟨hf, hi⟩ := iterate_advance_init files k
  have hik : ((advance)^[k] (init files)).nextFrameIdx = k := by
    rw [hi]; exact Nat.min_eq_left (Nat.le_of_lt hk)
  refine ⟨((List.insertionSort fileLE files).get ⟨k, hk₁⟩).number, ?_, ?_, ?_⟩
  · show ((advance)^[k + 1] (init files)).frameNumber = _
    rw [Function.iterate_succ_apply', advance_frameNumber, hf, hik,
      List.getElem?_eq_getElem hk₁]
    rfl
  · exact List.mem_map_of_mem FrameFile.number
      ((List.perm_insertionSort fileLE files).mem_iff.mp (List.get_mem _ _ _))
  · have hvg : ((List.insertionSort fileLE files).get ⟨k, hk₁⟩).number
        = ((List.insertionSort fileLE files).map FrameFile.number).get ⟨k, hk₂⟩ := by
      simp [List.get_eq_getElem, List.getElem_map]
    rw [hvg, ← hperm.countP_eq]
    exact countP_lt_get_of_pairwise_lt _ hstrict k hk₂

/-- Two recorded frames whose numeric order (9 before 10) differs from the
lexical order of their filenames ("10.vicon.txt" before "9.vicon.txt"), for
the C8 witness. -/
def witnessFiles : List FrameFile := [⟨10, []⟩, ⟨9, []⟩]

/-- Witness for C8: after the first advance over `witnessFiles` the reported
frame number is the smallest embedded number. -/
theorem offline_frame_order_witness :
    ∃ v, getFrameNumber ((advance)^[0 + 1] (init witnessFiles)) = some v
      ∧ v ∈ witnessFiles.map FrameFile.number
      ∧ (witnessFiles.map FrameFile.number).countP (fun x => decide (x < v)) = 0 :=
  offline_frame_order witnessFiles 0 (by decide) (by decide)

/-- C6: the first `n` frame advances over an `n`-frame folder all succeed;
the next advance returns `False` as a normal boolean result, and after that
call the frame-number query returns `None`. -/
theorem offline_exhausted_not_error (files : List FrameFile) :
    (∀ k, k < files.length → (getFrame ((advance)^[k] (init files))).1 = true)
    ∧ (getFrame ((advance)^[files.length] (init files))).1 = false
    ∧ getFrameNumber (getFrame ((advance)^[files.length] (init files))).2 = none := by
  have hlen : (List.insertionSort fileLE files).length = files.length :=
    (List.perm_insertionSort fileLE files).length_eq
  refine ⟨?_, ?_, ?_⟩
  · intro k hk
    obtain ⟨hf, hi⟩ := iterate_advance_init files k
    have hlt : ((advance)^[k] (init files)).nextFrameIdx
        < ((advance)^[k] (init files)).frameFiles.length := by
      rw [hf, hlen, hi]; omega
    rw [getFrame_of_lt _ hlt]
  · obtain ⟨hf, hi⟩ := iterate_advance_init files files.length
    have hnlt : ¬ ((advance)^[files.length] (init files)).nextFrameIdx
        < ((advance)^[files.length] (init files)).frameFiles.length := by
      rw [hf, hlen, hi]; omega
    rw [getFrame_of_ge _ hnlt]
  · obtain ⟨hf, hi⟩ := iterate_advance_init files files.length
    have hnlt : ¬ ((advance)^[files.length] (init files)).nextFrameIdx
        < ((advance)^[files.length] (init files)).frameFiles.length := by
      rw [hf, hlen, hi]; omega
    rw [getFrame_of_ge _ hnlt]
    rfl

/-- Witness for C6: on a one-frame folder the first advance succeeds. -/
theorem offline_exhausted_not_error_witness :
    (getFrame ((advance)^[0] (init [⟨3, []⟩]))).1 = true :=
  (offline_exhausted_not_error [⟨3, []⟩]).1 0 (by decide)

end OfflineViconInterface

namespace LiveViconInterface

/-- `LiveViconInterface.get_segment_names`: return the data-stream client's
segment-name list for the subject; a `ViconDataStream.DataStreamException`
(raised e.g. for an unknown subject) is caught and converted into the empty
list.  The client call is modelled as `Except`, with exceptions as
`.error`. -/
def getSegmentNames (client : String → Except String (List String))
    (subjectName : String) : List String :=
  match client subjectName with
  | .ok names => names
  | .error _ => []

end LiveViconInterface

namespace ViconFrameSaver

/-- `ViconFrameSaver.save_frame` writes the frame's data to
`os.path.join(folder, f"{frame_number}.txt")`: the saved file's name is the
frame number followed by ".txt". -/
def savedFrameFilename (frameNumber : Nat) : String := toString frameNumber ++ ".txt"

end ViconFrameSaver

/-- C5 (failing-input evaluation): the frame saver names its file
`<frame number>.txt`, but the offline provider's constructor only picks up
files ending in ".vicon.txt", so a folder holding exactly one saved frame
yields an empty frame-file list, and the provider built over an empty frame
list cannot load any frame (its first advance returns `False` with no
subjects) — the save-then-reload round trip reproduces nothing. -/
theorem save_reload_filename_mismatch :
    OfflineViconInterface.isFrameFilename (ViconFrameSaver.savedFrameFilename 0) = false
    ∧ OfflineViconInterface.listFrameFilenames [ViconFrameSaver.savedFrameFilename 0] = []
    ∧ (OfflineViconInterface.getFrame (OfflineViconInterface.init [])).1 = false
    ∧ OfflineViconInterface.getFrameNumber
        (OfflineViconInterface.getFrame (OfflineViconInterface.init [])).2 = none := by
  exact ⟨by decide, by decide, rfl, rfl⟩

/-- C7 (failing-input evaluation): for an unknown subject the offline
provider's segment-names query returns `None` — not the empty list promised
by its own docstring and by the spec — while the live provider's query does
return the empty list when the data stream raises. -/
theorem segment_names_unknown_subject :
    OfflineViconInterface.getSegmentNames (OfflineViconInterface.init []) "Foo" = none
    ∧ LiveViconInterface.getSegmentNames
        (fun _ => Except.error "DataStreamException") "Foo" = [] :=
  ⟨rfl, rfl⟩

namespace SubjectFromSourceCache

/-- `SubjectFromSourceCache.get`: return the cached subject-from-source
transform if present; otherwise load it from the per-subject file on disk if
that file exists, else return `None`.  The in-memory cache and the on-disk
files are modelled as partial maps; the append-only cache insertion performed
on a disk hit does not affect the returned value. -/
def get (cache disk : String → Option Mat4) (subjectName : String) : Option Mat4 :=
  match cache subjectName with
  | some t => some t
  | none => disk subjectName

end SubjectFromSourceCache

namespace ViconInterface

/-- `np.linalg.inv` on a 4×4 matrix, via the adjugate formula (which agrees
with the numerical inverse on every invertible matrix). -/
def inv4 (M : Mat4) : Mat4 := (Matrix.det M)⁻¹ • Matrix.adjugate M

/-- `ViconInterface.get_image_source_pose`: look up the subject-from-source
calibration in the cache and the global pose of the segment named like the
subject; if both are available return
`np.linalg.inv(subject_from_vicon) @ subject_from_source`, else `None`. -/
def getImageSourcePose (segmentGlobalPose : String → String → Option Mat4)
    (cache disk : String → Option Mat4) (subjectName : String) : Option Mat4 :=
  match SubjectFromSourceCache.get cache disk subjectName,
        segmentGlobalPose subjectName subjectName with
  | some subjectFromSource, some subjectFromVicon =>
      some (inv4 subjectFromVicon * subjectFromSource)
  | _, _ => none

/-- C9: `get_image_source_pose` returns a non-`None` result exactly when the
calibration cache yields a subject-from-source transform and the provider
reports a global pose for the segment named like the subject, and in that
case the result is `inv(subject_from_vicon)` matrix-multiplied by
`subject_from_source`; in every other case it returns `None` rather than
raising. -/
theorem get_image_source_pose_spec (segmentGlobalPose : String → String → Option Mat4)
    (cache disk : String → Option Mat4) (subjectName : String) :
    (getImageSourcePose segmentGlobalPose cache disk subjectName ≠ none ↔
      SubjectFromSourceCache.get cache disk subjectName ≠ none
        ∧ segmentGlobalPose subjectName subjectName ≠ none)
    ∧ (∀ c p, SubjectFromSourceCache.get cache disk subjectName = some c →
        segmentGlobalPose subjectName subjectName = some p →
        getImageSourcePose segmentGlobalPose cache disk subjectName = some (inv4 p * c)) := by
  constructor
  · cases hc : SubjectFromSourceCache.get cache disk subjectName <;>
      cases hp : segmentGlobalPose subjectName subjectName <;>
        simp [getImageSourcePose, hc, hp]
  · intro c p hc hp
    unfold getImageSourcePose
    rw [hc, hp]

/-- Witness for C9: with identity transforms on both sides, the pose is
returned and equals the product. -/
theorem get_image_source_pose_witness :
    getImageSourcePose (fun _ _ => some 1) (fun _ => some 1) (fun _ => none) "A"
      = some (inv4 1 * 1) :=
  (get_image_source_pose_spec (fun _ _ => some 1) (fun _ => some 1) (fun _ => none) "A").2
    1 1 rfl rfl

end ViconInterface
